import Mathlib

/-!
Verification of the MongoDB→Neo4j batch integration pipeline of this
repository (src/main.py, src/app/queries/neo4j_queries.py,
src/app/database/neo4j.py).

The Python code is shallowly embedded:
* loosely typed Mongo document values become the inductive `RawValue`
  (Python floats are modelled as rationals; Python lists of strings as
  `listStr` — the shapes the pipeline's fields take);
* Python string builtins used by the source (`strip`, `split(',')`,
  `upper`, single-character `replace`, `startswith`, `str()`, `int()`,
  `float()`) are modelled character-exactly on `List Char` below
  (`float()` is modelled on its finite-literal grammar, including
  underscores, exponents and signs; the `inf`/`nan` word forms are not
  modelled since no claim's input reaches them);
* the Neo4j graph is a `GraphState` of node-key sets and edge sets, and
  the Cypher MERGE statements of `process_film_batch_specific` become
  insert-if-absent set operations, property writes being
  last-write-wins function updates.
-/

/-- A loosely-typed value read from a MongoDB document: absent/None,
string, int, float (as an exact rational) or a list of strings. -/
inductive RawValue where
  | null : RawValue
  | str (s : String) : RawValue
  | int (n : Int) : RawValue
  | float (q : ℚ) : RawValue
  | listStr (l : List String) : RawValue
deriving DecidableEq

/-- Python truthiness of a `RawValue` (`if not x` tests): None, empty
string, zero and the empty list are falsy. -/
def truthy : RawValue → Bool
  | .null => false
  | .str s => !(s == "")
  | .int n => !(n == 0)
  | .float q => !(q == 0)
  | .listStr l => !(l == [])

/-- Python `str.strip` whitespace class (ASCII part). -/
def isSpaceChar (c : Char) : Bool :=
  c == ' ' || c == '\t' || c == '\n' || c == '\r' || c == '\x0b' || c == '\x0c'

/-- Python `str.strip()` on a character list. -/
def pyStripChars (cs : List Char) : List Char :=
  ((cs.dropWhile isSpaceChar).reverse.dropWhile isSpaceChar).reverse

/-- Python `str.strip()`. -/
def pyStripStr (s : String) : String := (pyStripChars s.toList).asString

/-- Python `str.split(sep)` for a one-character separator. -/
def pySplitChar (sep : Char) : List Char → List (List Char)
  | [] => [[]]
  | c :: r =>
    if c = sep then [] :: pySplitChar sep r
    else
      match pySplitChar sep r with
      | h :: t => (c :: h) :: t
      | [] => [[c]]

/-- Python `s.startswith(p)` on character lists. -/
def startsWithChars : List Char → List Char → Bool
  | [], _ => true
  | _ :: _, [] => false
  | p :: ps, c :: cs => p == c && startsWithChars ps cs

/-- ASCII decimal digit test (`0030`–`0039`), as Python's `float`/`int`
literal grammar uses it. -/
def isDigitCh (c : Char) : Bool := 48 ≤ c.toNat && c.toNat ≤ 57

/-- Python `str.upper` on one character (ASCII fragment, the only
characters the pipeline feeds it). -/
def pyUpperChar (c : Char) : Char :=
  if 97 ≤ c.toNat ∧ c.toNat ≤ 122 then Char.ofNat (c.toNat - 32) else c

/-- Digit-run value (underscores must already be stripped). -/
def digitsToNat (cs : List Char) : ℕ :=
  cs.foldl (fun a c => a * 10 + (c.toNat - 48)) 0

/-- Tail of a Python numeric-literal digit part: underscores only
between digits. -/
def digitsTailOk : List Char → Bool
  | [] => true
  | '_' :: [] => false
  | '_' :: c :: r => isDigitCh c && digitsTailOk (c :: r)
  | c :: r => isDigitCh c && digitsTailOk r

/-- A Python numeric-literal digit part: nonempty, starts with a digit,
underscores only between digits. -/
def digitPartOk (cs : List Char) : Bool :=
  match cs with
  | [] => false
  | c :: r => isDigitCh c && digitsTailOk r

/-- Drop the underscores of a validated digit part. -/
def stripUnderscores (cs : List Char) : List Char := cs.filter (· != '_')

/-- Mantissa of Python's `float()` grammar: `digits`, `digits.`,
`.digits` or `digits.digits`, with underscore rules. -/
def parseMantissa (cs : List Char) : Option ℚ :=
  let ip := cs.takeWhile (· != '.')
  match cs.dropWhile (· != '.') with
  | [] => if digitPartOk ip then some ((digitsToNat (stripUnderscores ip) : ℕ) : ℚ) else none
  | _ :: fp =>
    if fp.contains '.' then none
    else if (ip.isEmpty || digitPartOk ip) && (fp.isEmpty || digitPartOk fp)
            && !(ip.isEmpty && fp.isEmpty) then
      some ((digitsToNat (stripUnderscores ip) : ℚ)
        + (digitsToNat (stripUnderscores fp) : ℚ) / (10 : ℚ) ^ (stripUnderscores fp).length)
    else none

/-- Python `float(s)` on its finite-literal grammar: optional
whitespace and sign, decimal mantissa, optional exponent.  Returns
`none` where CPython raises `ValueError`. -/
def pyFloatChars (cs : List Char) : Option ℚ :=
  let t := pyStripChars cs
  let sgn : ℚ × List Char :=
    match t with
    | '+' :: r => (1, r)
    | '-' :: r => (-1, r)
    | r => (1, r)
  let mant := sgn.2.takeWhile (fun c => !(c == 'e' || c == 'E'))
  match sgn.2.dropWhile (fun c => !(c == 'e' || c == 'E')) with
  | [] => (parseMantissa mant).map (fun m => sgn.1 * m)
  | _ :: ex =>
    let es : Int × List Char :=
      match ex with
      | '+' :: r => (1, r)
      | '-' :: r => (-1, r)
      | r => (1, r)
    if digitPartOk es.2 then
      (parseMantissa mant).map (fun m =>
        let e : Int := es.1 * (digitsToNat (stripUnderscores es.2) : Int)
        if 0 ≤ e then sgn.1 * m * (10 : ℚ) ^ e.toNat
        else sgn.1 * m / (10 : ℚ) ^ (-e).toNat)
    else none

/-- Python `int(s)` on a string: optional whitespace and sign, then a
decimal digit part (underscores allowed between digits). -/
def pyIntParse (s : String) : Option Int :=
  match pyStripChars s.toList with
  | '+' :: r => if digitPartOk r then some ((digitsToNat (stripUnderscores r) : ℕ) : Int) else none
  | '-' :: r => if digitPartOk r then some (-((digitsToNat (stripUnderscores r) : ℕ) : Int)) else none
  | r => if digitPartOk r then some ((digitsToNat (stripUnderscores r) : ℕ) : Int) else none

/-- The source's guarded conversion
`int(doc.get(k)) if doc.get(k) is not None else None` inside
`try/except`: any failure (TypeError on a list, ValueError on a bad
string) becomes `None`; `int()` of a float truncates toward zero. -/
def pyIntOf : RawValue → Option Int
  | .null => none
  | .int n => some n
  | .float q => some (Int.tdiv q.num (q.den : Int))
  | .str s => pyIntParse s
  | .listStr _ => none

/-- Decimal digits of a natural number (model of Python `str(n)` for
`n ≥ 0`), via fuelled division by 10. -/
def natReprGo : ℕ → ℕ → List Char → List Char
  | 0, _, acc => acc
  | fuel + 1, n, acc =>
    let acc := Char.ofNat (48 + n % 10) :: acc
    if n < 10 then acc else natReprGo fuel (n / 10) acc

/-- Decimal representation of a natural number. -/
def natReprStr (n : ℕ) : String := (natReprGo (n + 1) n []).asString

/-- Python `str()` of an int. -/
def pyStrInt (n : Int) : String :=
  if n < 0 then "-" ++ natReprStr n.natAbs else natReprStr n.natAbs

/-- Fractional decimal digits of `num/den` (fuelled; exact for the
dyadic rationals that Python floats are). -/
def fracDigitsGo : ℕ → ℕ → ℕ → List Char
  | 0, _, _ => []
  | fuel + 1, num, den =>
    if num = 0 then []
    else Char.ofNat (48 + (num * 10) / den % 10) :: fracDigitsGo fuel ((num * 10) % den) den

/-- Python `str()` of a float (idealised to the exact decimal expansion
of the modelled rational). -/
def pyStrFloat (q : ℚ) : String :=
  (if q < 0 then "-" else "")
    ++ natReprStr (q.num.natAbs / q.den) ++ "."
    ++ (let fd := fracDigitsGo 4000 (q.num.natAbs % q.den) q.den
        if fd.isEmpty then "0" else fd.asString)

/-- Python `str()` of a list of strings (`repr` with single quotes). -/
def pyStrList (l : List String) : String :=
  "[" ++ String.intercalate ", " (l.map (fun s => "'" ++ s ++ "'")) ++ "]"

/-- Python `str()` of a `RawValue`. -/
def pyStr : RawValue → String
  | .null => "None"
  | .str s => s
  | .int n => pyStrInt n
  | .float q => pyStrFloat q
  | .listStr l => pyStrList l

/-- The design-document test of the source:
`isinstance(x, str) and x.startswith("_design/")`. -/
def isDesignId : RawValue → Bool
  | .str s => startsWithChars "_design/".toList s.toList
  | _ => false

/-- The source's comma-split cleaner
`[a.strip() for a in s.split(',') if a.strip()]`. -/
def splitCommaTrim (s : String) : List String :=
  ((pySplitChar ',' s.toList).map (fun p => (pyStripChars p).asString)).filter (· ≠ "")

/-- `Director` field cleaning (src/main.py lines 827-831): a string is
comma-split and trimmed, a list is kept with elements stringified,
trimmed and the empty ones removed, anything else is the empty list. -/
def normDirectors : RawValue → List String
  | .str s => splitCommaTrim s
  | .listStr l => (l.map (fun d => (pyStripChars d.toList).asString)).filter (· ≠ "")
  | _ => []

/-- `Actors` field cleaning (src/main.py lines 834-835): only a string
is comma-split; every non-string value (lists included) yields `[]`. -/
def normActors : RawValue → List String
  | .str s => splitCommaTrim s
  | _ => []

/-- `genre` field cleaning (src/main.py lines 836-837): only a string
is comma-split; every non-string value (lists included) yields `[]`. -/
def normGenres : RawValue → List String
  | .str s => splitCommaTrim s
  | _ => []

/-- `rating` field cleaning (src/main.py lines 825-826): kept only when
it is a nonempty string. -/
def normRating : RawValue → Option String
  | .str s => if s = "" then none else some s
  | _ => none

/-- Revenue cleaning on a string (src/main.py lines 845-850): delete
`$` and `,`, test for `M`/`K` in the uppercased text, delete the suffix
letter and parse the remainder with `float()`, scaling by 1e6 / 1e3. -/
def revenueFromChars (cs : List Char) : Option ℚ :=
  let cleaned := (cs.filter (· != '$')).filter (· != ',')
  let up := cleaned.map pyUpperChar
  if 'M' ∈ up then (pyFloatChars (up.filter (· != 'M'))).map (fun q => q * 1000000)
  else if 'K' ∈ up then (pyFloatChars (up.filter (· != 'K'))).map (fun q => q * 1000)
  else pyFloatChars cleaned

/-- Revenue cleaning (src/main.py lines 840-851): numbers pass through,
strings are cleaned and parsed, everything else (or a parse failure)
yields `None` — never an exception. -/
def normRevenue : RawValue → Option ℚ
  | .int n => some ((n : ℚ))
  | .float q => some q
  | .str s => revenueFromChars s.toList
  | _ => none

/-- The canonical film record handed to the upsert engine
(`film_data_for_neo4j`, src/main.py lines 854-858). -/
structure FilmRec where
  mongoId : String
  title : RawValue
  year : Option Int
  votes : Option Int
  rating : Option String
  director : Option String
  revenue : Option ℚ
  allDirectors : List String
  actors : List String
  genres : List String
deriving DecidableEq

/-- A raw movies document restricted to the projected fields
(src/main.py lines 791-795). -/
structure RawDoc where
  id : RawValue
  title : RawValue
  year : RawValue
  votes : RawValue
  rating : RawValue
  director : RawValue
  actors : RawValue
  genre : RawValue
  revenue : RawValue
deriving DecidableEq

/-- Outcome of normalising one raw document: a skip signal (the loop
increments `skipped_count` and continues) or a canonical record. -/
inductive NormResult where
  | skip : NormResult
  | ok (r : FilmRec) : NormResult
deriving DecidableEq

/-- The Field Normalizer: the validation-and-cleaning loop body of
`integrate_mongodb_to_neo4j_specific` (src/main.py lines 806-858). -/
def normalize_film_doc (d : RawDoc) : NormResult :=
  if isDesignId d.id then .skip
  else if truthy d.title && truthy d.id then
    let directors_list := normDirectors d.director
    .ok { mongoId := pyStr d.id
          title := d.title
          year := pyIntOf d.year
          votes := pyIntOf d.votes
          rating := normRating d.rating
          director := directors_list.head?
          revenue := normRevenue d.revenue
          allDirectors := directors_list
          actors := normActors d.actors
          genres := normGenres d.genre }
  else .skip

/-- Scalar properties written onto a `Film` node by the batch query's
SET clause (src/main.py lines 911-915); a `none` models a property
removed by `SET` to Cypher NULL. -/
structure FilmProps where
  title : RawValue
  year : Option Int
  votes : Option Int
  rating : Option String
  director : Option String
  revenue : Option ℚ
deriving DecidableEq

/-- The scalar properties a record writes. -/
def propsOf (r : FilmRec) : FilmProps :=
  { title := r.title, year := r.year, votes := r.votes,
    rating := r.rating, director := r.director, revenue := r.revenue }

/-- State of the Neo4j graph as the pipeline's queries see it: node
key sets (`Film` keyed by `mongoId`; `Actor`, `Director`, `Genre`
keyed by `name`), `Film` properties, and the five edge sets. -/
structure GraphState where
  films : Finset String
  filmProps : String → Option FilmProps
  actors : Finset String
  directors : Finset String
  genres : Finset String
  hasGenre : Finset (String × String)
  actedIn : Finset (String × String)
  directed : Finset (String × String)
  workedWith : Finset (String × String)
  partOfTeam : Finset (String × String)

attribute [ext] GraphState

/-- The graph with no nodes and no edges. -/
def emptyGraphState : GraphState :=
  { films := ∅, filmProps := fun _ => none, actors := ∅, directors := ∅,
    genres := ∅, hasGenre := ∅, actedIn := ∅, directed := ∅,
    workedWith := ∅, partOfTeam := ∅ }

/-- The Cypher list comprehensions
`[x IN list WHERE x IS NOT NULL AND x <> '']` of the batch query, as a
set of names. -/
def validNames (l : List String) : Finset String :=
  (l.filter (· ≠ "")).toFinset

/-- Effect of the batch query's body on one `film_data` row
(src/main.py lines 919-958): MERGE the `Film` by `mongoId` and
overwrite its scalar properties, MERGE `Genre`/`Actor`/`Director`
nodes by name, and MERGE the `HAS_GENRE`, `ACTED_IN`, `DIRECTED` and
`WORKED_WITH` edges (the latter Director→Actor for the same film). -/
def process_film_record (g : GraphState) (r : FilmRec) : GraphState :=
  let gs := validNames r.genres
  let as := validNames r.actors
  let ds := validNames r.allDirectors
  { films := g.films ∪ {r.mongoId}
    filmProps := Function.update g.filmProps r.mongoId (some (propsOf r))
    actors := g.actors ∪ as
    directors := g.directors ∪ ds
    genres := g.genres ∪ gs
    hasGenre := g.hasGenre ∪ gs.image (fun gn => (r.mongoId, gn))
    actedIn := g.actedIn ∪ as.image (fun a => (a, r.mongoId))
    directed := g.directed ∪ ds.image (fun dn => (dn, r.mongoId))
    workedWith := g.workedWith ∪ ds ×ˢ as
    partOfTeam := g.partOfTeam }

/-- The Graph Upsert Engine `process_film_batch_specific`
(src/main.py lines 906-959): one query that UNWINDs the batch and
applies the row body to each record in order. -/
def process_film_batch_specific (g : GraphState) (films_batch : List FilmRec) : GraphState :=
  films_batch.foldl process_film_record g

/-- The write transaction around one batch, record by record, with an
environmental failure injected at record index `failAt` (connectivity
loss, constraint violation, …).  An `error` means the transaction
function raised before commit. -/
def run_film_batch_tx (failAt : Option ℕ) : ℕ → GraphState → List FilmRec → Except String GraphState
  | _, g, [] => .ok g
  | k, g, r :: rs =>
    if failAt = some k then .error "record upsert failed"
    else run_film_batch_tx failAt (k + 1) (process_film_record g r) rs

/-- `session.execute_write(process_film_batch_specific, batch)`
(src/main.py line 866): the managed write transaction of the graph
store collaborator — commit on success, rollback (state unchanged) on
any error, per spec §6's commit/rollback boundary. -/
def execute_write_film_batch (failAt : Option ℕ) (g : GraphState) (b : List FilmRec) : GraphState :=
  match run_film_batch_tx failAt 0 g b with
  | .ok g2 => g2
  | .error _ => g

/-- Neo4j mutation counters (`result.consume().counters`,
src/main.py lines 972-979). -/
structure MutationCounters where
  nodes_created : ℕ
  relationships_created : ℕ
  nodes_deleted : ℕ
  relationships_deleted : ℕ
  properties_set : ℕ
deriving DecidableEq

/-- The all-zero counter summary. -/
def zeroCounters : MutationCounters :=
  { nodes_created := 0, relationships_created := 0, nodes_deleted := 0,
    relationships_deleted := 0, properties_set := 0 }

/-- The Project-Membership Linker `add_project_members_to_film`
(src/main.py lines 964-980): MATCH films by exact title, then per
(film, member) row MERGE an `Actor` node and a `PART_OF_PROJECT_TEAM`
edge; returns the new graph and the store's mutation counters.  With
zero matched films the UNWIND runs over zero rows, merging nothing
(each created Actor node gets its one `name` property set). -/
def add_project_members_to_film (g : GraphState) (member_names : List String)
    (film_title : String) : GraphState × MutationCounters :=
  let matched := g.films.filter
    (fun x => (g.filmProps x).map FilmProps.title = some (RawValue.str film_title))
  let rows := matched ×ˢ member_names.toFinset
  let mergedActors := rows.image Prod.snd
  let mergedEdges := rows.image (fun p => (p.2, p.1))
  let created := (mergedActors \ g.actors).card
  ({ g with actors := g.actors ∪ mergedActors,
            partOfTeam := g.partOfTeam ∪ mergedEdges },
   { nodes_created := created,
     relationships_created := (mergedEdges \ g.partOfTeam).card,
     nodes_deleted := 0, relationships_deleted := 0,
     properties_set := created })

/-- Terminal state of `integrate_mongodb_to_neo4j_specific`: normal
completion with the final summary, the early `return` of the batch
except-branch (src/main.py line 874), or an escaped exception — which
the source never produces, every batch error being caught. -/
inductive IntegrationOutcome where
  | completed (msg : String) : IntegrationOutcome
  | stoppedOnBatchError (msg : String) : IntegrationOutcome
  | raisedError (msg : String) : IntegrationOutcome
deriving DecidableEq

/-- What a pipeline run leaves behind: final graph, the two progress
counters, the batches handed to `execute_write`, and how it ended. -/
structure IntegrationResult where
  graph : GraphState
  processed : ℕ
  skipped : ℕ
  attempts : List (List FilmRec)
  outcome : IntegrationOutcome

/-- Message of the batch except-branch (src/main.py line 871). -/
def batchErrMsg (e : String) : String := "Erreur traitement lot Neo4j: " ++ e

/-- Final summary message (src/main.py line 877). -/
def finalMsg (processed skipped : ℕ) : String :=
  "Intégration terminée. " ++ toString processed ++ " films traités, "
    ++ toString skipped ++ " ignorés."

/-- The orchestrator's document loop (src/main.py lines 806-879):
normalize each cursor document (skips bypass the flush check via
`continue`), append to the in-flight batch, and flush when the batch
is full or the enumerate index hits `total - 1`; a flush failure
reports and returns at once.  `fail` is the environmental failure
oracle of the store collaborator. -/
def integration_loop (batchSize : ℕ) (fail : List FilmRec → Option String) (total : ℕ) :
    List RawDoc → ℕ → GraphState → ℕ → ℕ → List FilmRec → List (List FilmRec) →
    IntegrationResult
  | [], _, g, processed, skipped, _, attempts =>
    { graph := g, processed := processed, skipped := skipped,
      attempts := attempts, outcome := .completed (finalMsg processed skipped) }
  | d :: ds, i, g, processed, skipped, batch, attempts =>
    match normalize_film_doc d with
    | .skip => integration_loop batchSize fail total ds (i + 1) g processed (skipped + 1) batch attempts
    | .ok r =>
      let batch2 := batch ++ [r]
      if batchSize ≤ batch2.length ∨ (0 < total ∧ i = total - 1) then
        match fail batch2 with
        | some e =>
          { graph := g, processed := processed, skipped := skipped,
            attempts := attempts ++ [batch2],
            outcome := .stoppedOnBatchError (batchErrMsg e) }
        | none =>
          integration_loop batchSize fail total ds (i + 1)
            (process_film_batch_specific g batch2) (processed + batch2.length)
            skipped [] (attempts ++ [batch2])
      else integration_loop batchSize fail total ds (i + 1) g processed skipped batch2 attempts

/-- The Mongo-side cursor filter
`{"_id": {"$not": {"$regex": "^_design/"}}}` (src/main.py line 790). -/
def keptByMongoFilter (d : RawDoc) : Bool := !(isDesignId d.id)

/-- The Pipeline Orchestrator `integrate_mongodb_to_neo4j_specific`
(src/main.py lines 752-879) on one collection: filter the collection,
estimate `total` by counting it, and run the loop with empty
accumulators.  The hardcoded source batch size is 250. -/
def integrate_mongodb_to_neo4j_specific (batchSize : ℕ)
    (fail : List FilmRec → Option String) (g : GraphState)
    (collection : List RawDoc) : IntegrationResult :=
  let docs := collection.filter keptByMongoFilter
  integration_loop batchSize fail docs.length docs 0 g 0 0 [] []

/-- True on the outcome the source can never produce: an exception
escaping `integrate_mongodb_to_neo4j_specific`. -/
def isRaisedOutcome : IntegrationOutcome → Bool
  | .raisedError _ => true
  | _ => false

/-- Python exceptions relevant to the generic relationship writers. -/
inductive PyExn where
  | nameError (missing : String) : PyExn
  | valueError (msg : String) : PyExn
deriving DecidableEq

/-- Result of calling a relationship writer: the query text it runs,
or the exception it raises before running anything. -/
inductive RelWriteResult where
  | queryRun (text : String) : RelWriteResult
  | raisedExn (e : PyExn) : RelWriteResult
deriving DecidableEq

/-- Names bound at module level in src/app/queries/neo4j_queries.py:
its imports (lines 1-8) and its own functions.  `re` is not among
them — the module never imports `re`. -/
def neo4j_queries_module_globals : List String :=
  ["List", "Dict", "Any", "Optional", "Session", "pd",
   "create_node", "find_nodes", "create_relationship",
   "find_shortest_path", "execute_cypher_query",
   "get_shortest_path_between_actors", "analyze_graph"]

/-- The validation regex `^[A-Z_]{1,50}$` of
src/app/queries/neo4j_queries.py line 68. -/
def relTypeRegexOk (rel_type : String) : Bool :=
  1 ≤ rel_type.toList.length && rel_type.toList.length ≤ 50
    && rel_type.toList.all (fun c => (65 ≤ c.toNat && c.toNat ≤ 90) || c == '_')

/-- Query text built by the validated writer (lines 72-78), with the
relationship type interpolated. -/
def queries_rel_query_text (rel_type : String) : String :=
  "MATCH (start), (end) WHERE ID(start) = $start_id AND ID(end) = $end_id CREATE (start)-[r:"
    ++ rel_type ++ "]->(end) SET r += $props RETURN COUNT(r) AS count"

/-- `create_relationship` of src/app/queries/neo4j_queries.py
(lines 65-87): evaluating `re.match` first resolves the name `re` in
the module globals — absent, so every call raises `NameError` before
any validation; with `re` in scope the code would raise `ValueError`
on a regex mismatch and otherwise run the query. -/
def queries_create_relationship (rel_type : String) : RelWriteResult :=
  if "re" ∈ neo4j_queries_module_globals then
    if relTypeRegexOk rel_type then .queryRun (queries_rel_query_text rel_type)
    else .raisedExn (.valueError "Type de relation invalide (doit être en majuscules, max 50 caractères)")
  else .raisedExn (.nameError "re")

/-- `create_relationship` of src/app/database/neo4j.py (lines 49-65):
interpolates the relationship type into the query text with no
validation at all and runs it. -/
def db_create_relationship (relationship_type : String) : RelWriteResult :=
  .queryRun ("MATCH (start), (end) WHERE ID(start) = $start_id AND ID(end) = $end_id CREATE (start)-[r:"
    ++ relationship_type ++ " $props]->(end) RETURN r")

/-- Union of a per-record contribution over a batch (used to state what
one engine run adds to the graph). -/
def batchUnion {α : Type} [DecidableEq α] (f : FilmRec → Finset α) : List FilmRec → Finset α
  | [] => ∅
  | r :: rs => f r ∪ batchUnion f rs

/-- The last property write a batch performs on film key `x`, if any —
the UNWIND applies `SET` record by record, so the batch's last record
with that `mongoId` wins. -/
def lastPropWrite : List FilmRec → String → Option FilmProps
  | [], _ => none
  | r :: rs, x =>
    match lastPropWrite rs x with
    | some p => some p
    | none => if x = r.mongoId then some (propsOf r) else none

/-- Total number of graph nodes (all four labels). -/
def nodeCount (g : GraphState) : ℕ :=
  g.films.card + g.actors.card + g.directors.card + g.genres.card

/-- Total number of graph edges (all five relationship types). -/
def edgeCount (g : GraphState) : ℕ :=
  g.hasGenre.card + g.actedIn.card + g.directed.card + g.workedWith.card
    + g.partOfTeam.card

/-- A raw document with identifier and title present and nonempty. -/
def docValidX : RawDoc :=
  { id := .str "1", title := .str "X", year := .null, votes := .null,
    rating := .null, director := .null, actors := .null, genre := .null,
    revenue := .null }

/-- A second valid raw document. -/
def docValidY : RawDoc :=
  { id := .str "2", title := .str "Y", year := .null, votes := .null,
    rating := .null, director := .null, actors := .null, genre := .null,
    revenue := .null }

/-- A raw document whose `title` is missing (Python `None`). -/
def docMissingTitle : RawDoc :=
  { id := .str "2", title := .null, year := .null, votes := .null,
    rating := .null, director := .null, actors := .null, genre := .null,
    revenue := .null }

/-- A design document: nonempty string id starting with `_design/`,
nonempty title. -/
def docDesign : RawDoc :=
  { id := .str "_design/layout", title := .str "X", year := .null, votes := .null,
    rating := .null, director := .null, actors := .null, genre := .null,
    revenue := .null }

/-- A raw document whose `Actors` and `genre` fields are lists (the
encoding the spec says is used verbatim). -/
def docListActors : RawDoc :=
  { id := .str "7", title := .str "Z", year := .null, votes := .null,
    rating := .null, director := .listStr ["D"], actors := .listStr ["C"],
    genre := .listStr ["Drama"], revenue := .null }

/-- The canonical record the Normalizer produces for `docListActors`. -/
def recListActors : FilmRec :=
  { mongoId := "7", title := .str "Z", year := none, votes := none,
    rating := none, director := some "D", revenue := none,
    allDirectors := ["D"], actors := [], genres := [] }

/-- A canonical record used to exercise the engine and the transaction
boundary on concrete inputs. -/
def sampleFilmRec : FilmRec :=
  { mongoId := "m1", title := .str "X", year := some 1999, votes := none,
    rating := none, director := some "A", revenue := none,
    allDirectors := ["A", "B"], actors := ["C"], genres := ["Drama"] }

/-- A graph holding exactly one film, titled "Inception". -/
def graphInception : GraphState :=
  { films := {"f1"},
    filmProps := fun x =>
      if x = "f1" then
        some { title := .str "Inception", year := none, votes := none,
               rating := none, director := none, revenue := none }
      else none,
    actors := ∅, directors := ∅, genres := ∅, hasGenre := ∅, actedIn := ∅,
    directed := ∅, workedWith := ∅, partOfTeam := ∅ }

/-- A store-failure oracle that fails every batch transaction. -/
def failEveryBatch : List FilmRec → Option String := fun _ => some "boom"

/-- A store-failure oracle that fails exactly the batches containing
the record with `mongoId = "2"`. -/
def failOnId2 : List FilmRec → Option String :=
  fun b => if b.any (fun r => r.mongoId == "2") then some "boom" else none

/-- A store-failure oracle under which every transaction commits. -/
def noBatchFailure : List FilmRec → Option String := fun _ => none

/-- The character class `[0-9,.]` of the spec's currency regex. -/
def currencyChar (c : Char) : Bool := isDigitCh c || c == ',' || c == '.'

/-- Strip the regex's optional leading `$`. -/
def stripDollar (cs : List Char) : List Char :=
  match cs with
  | c :: r => if c = '$' then r else c :: r
  | [] => []

/-- Split off the regex's optional trailing `[MK]` suffix
(case-insensitive). -/
def currencySuffixSplit (cs : List Char) : List Char × Option Char :=
  match cs.getLast? with
  | some c => if c = 'M' ∨ c = 'K' ∨ c = 'm' ∨ c = 'k' then (cs.dropLast, some c) else (cs, none)
  | none => ([], none)

/-- The spec's currency pattern `^\$?[0-9,.]+[MK]?$` with
case-insensitive suffix, as a decidable matcher. -/
def matchesCurrencyRegex (s : String) : Bool :=
  let p := currencySuffixSplit (stripDollar s.toList)
  !p.1.isEmpty && p.1.all currencyChar

/-- The spec-side reading of a matching currency string: its base
digits, after dropping `$`, the suffix letter and the `,` thousands
separators. -/
def currencyBase (s : String) : List Char :=
  (currencySuffixSplit (stripDollar s.toList)).1.filter (· != ',')

/-- The spec-side multiplier of a matching currency string: 1e6 for an
`M`/`m` suffix, 1e3 for `K`/`k`, 1 otherwise. -/
def currencyFactor (s : String) : ℚ :=
  match (currencySuffixSplit (stripDollar s.toList)).2 with
  | some c => if c = 'M' ∨ c = 'm' then 1000000 else 1000
  | none => 1

lemma batchUnion_cons {α : Type} [DecidableEq α] (f : FilmRec → Finset α) (r : FilmRec)
    (rs : List FilmRec) : batchUnion f (r :: rs) = f r ∪ batchUnion f rs := rfl

/-- One engine run is exactly: every node/edge set grows by the
batch's contribution, and film properties become the batch's last
write where there is one. -/
lemma process_batch_characterization (b : List FilmRec) : ∀ g : GraphState,
    process_film_batch_specific g b =
      { films := g.films ∪ batchUnion (fun r => {r.mongoId}) b
        filmProps := fun x => (lastPropWrite b x).or (g.filmProps x)
        actors := g.actors ∪ batchUnion (fun r => validNames r.actors) b
        directors := g.directors ∪ batchUnion (fun r => validNames r.allDirectors) b
        genres := g.genres ∪ batchUnion (fun r => validNames r.genres) b
        hasGenre := g.hasGenre ∪ batchUnion
          (fun r => (validNames r.genres).image (fun gn => (r.mongoId, gn))) b
        actedIn := g.actedIn ∪ batchUnion
          (fun r => (validNames r.actors).image (fun a => (a, r.mongoId))) b
        directed := g.directed ∪ batchUnion
          (fun r => (validNames r.allDirectors).image (fun dn => (dn, r.mongoId))) b
        workedWith := g.workedWith ∪ batchUnion
          (fun r => validNames r.allDirectors ×ˢ validNames r.actors) b
        partOfTeam := g.partOfTeam } := by
  induction b with
  | nil =>
    intro g
    refine GraphState.ext ?_ ?_ ?_ ?_ ?_ ?_ ?_ ?_ ?_ ?_ <;>
      simp [process_film_batch_specific, batchUnion, lastPropWrite]
  | cons r rs ih =>
    intro g
    have hfold : process_film_batch_specific g (r :: rs)
        = process_film_batch_specific (process_film_record g r) rs := rfl
    rw [hfold, ih]
    refine GraphState.ext ?_ ?_ ?_ ?_ ?_ ?_ ?_ ?_ ?_ ?_ <;>
      simp [process_film_record, batchUnion_cons, Finset.union_assoc]
    funext x
    rcases h : lastPropWrite rs x with _ | p
    · simp [lastPropWrite, h, Function.update_apply]
      by_cases hx : x = r.mongoId <;> simp [hx]
    · simp [lastPropWrite, h]

/-- C1.  Running the Graph Upsert Engine
(`process_film_batch_specific`) twice on an identical batch of
canonical records leaves the graph exactly as one run does — in
particular the node and edge counts of every label and relationship
type are unchanged by the second run: the MERGE semantics create no
duplicate Film/Actor/Director/Genre nodes and no duplicate HAS_GENRE,
ACTED_IN, DIRECTED or WORKED_WITH edges. -/
theorem upsert_engine_idempotent (g : GraphState) (b : List FilmRec) :
    process_film_batch_specific (process_film_batch_specific g b) b
      = process_film_batch_specific g b
    ∧ nodeCount (process_film_batch_specific (process_film_batch_specific g b) b)
      = nodeCount (process_film_batch_specific g b)
    ∧ edgeCount (process_film_batch_specific (process_film_batch_specific g b) b)
      = edgeCount (process_film_batch_specific g b) := by
  have hmain : process_film_batch_specific (process_film_batch_specific g b) b
      = process_film_batch_specific g b := by
    rw [process_batch_characterization b g, process_batch_characterization b]
    refine GraphState.ext ?_ ?_ ?_ ?_ ?_ ?_ ?_ ?_ ?_ ?_ <;>
      simp [Finset.union_assoc]
    funext x
    rcases h : lastPropWrite b x with _ | p <;> simp [h, Option.or]
  exact ⟨hmain, by rw [hmain], by rw [hmain]⟩

lemma run_film_batch_tx_none (b : List FilmRec) : ∀ (k : ℕ) (g : GraphState),
    run_film_batch_tx none k g b = .ok (process_film_batch_specific g b) := by
  induction b with
  | nil => intro k g; rfl
  | cons r rs ih =>
    intro k g
    simpa [run_film_batch_tx, process_film_batch_specific] using
      ih (k + 1) (process_film_record g r)

lemma run_film_batch_tx_fails (b : List FilmRec) : ∀ (k0 k : ℕ) (g : GraphState),
    k0 ≤ k → k < k0 + b.length →
    run_film_batch_tx (some k) k0 g b = .error "record upsert failed" := by
  induction b with
  | nil =>
    intro k0 k g hle hlt
    simp at hlt
    omega
  | cons r rs ih =>
    intro k0 k g hle hlt
    by_cases hk : k = k0
    · simp [run_film_batch_tx, hk]
    · have h1 : k0 + 1 ≤ k := by omega
      have h2 : k < (k0 + 1) + rs.length := by simp at hlt; omega
      simp [run_film_batch_tx, hk]
      exact ih (k0 + 1) k (process_film_record g r) h1 h2

/-- Anatomy of a run that ended in the batch except-branch: the
reported message carries exactly the underlying store error, the
failing batch is the last one attempted, every earlier attempt
committed, and the final graph contains exactly the committed
batches (the failing batch's mutations are rolled back). -/
lemma integration_loop_stopped (bs : ℕ) (fail : List FilmRec → Option String) (total : ℕ)
    (g0 : GraphState) :
    ∀ (ds : List RawDoc) (i : ℕ) (g : GraphState) (p s : ℕ) (batch : List FilmRec)
      (atts : List (List FilmRec)),
      g = atts.foldl process_film_batch_specific g0 →
      (∀ b ∈ atts, fail b = none) →
      ∀ msg,
      (integration_loop bs fail total ds i g p s batch atts).outcome
        = .stoppedOnBatchError msg →
      ∃ b e, fail b = some e ∧ msg = batchErrMsg e
        ∧ (integration_loop bs fail total ds i g p s batch atts).attempts.getLast? = some b
        ∧ (∀ b2 ∈ (integration_loop bs fail total ds i g p s batch atts).attempts.dropLast,
            fail b2 = none)
        ∧ (integration_loop bs fail total ds i g p s batch atts).graph
            = ((integration_loop bs fail total ds i g p s batch atts).attempts.dropLast).foldl
                process_film_batch_specific g0 := by
  intro ds
  induction ds with
  | nil =>
    intro i g p s batch atts hg hprev msg h
    simp [integration_loop] at h
  | cons d ds ih =>
    intro i g p s batch atts hg hprev msg h
    rcases hn : normalize_film_doc d with _ | r
    · simp only [integration_loop, hn] at h ⊢
      exact ih (i + 1) g p (s + 1) batch atts hg hprev msg h
    · simp only [integration_loop, hn] at h ⊢
      by_cases hc : bs ≤ (batch ++ [r]).length ∨ (0 < total ∧ i = total - 1)
      · rw [if_pos hc] at h ⊢
        rcases hf : fail (batch ++ [r]) with _ | e
        · simp only [hf] at h ⊢
          refine ih (i + 1) (process_film_batch_specific g (batch ++ [r]))
            (p + (batch ++ [r]).length) s [] (atts ++ [batch ++ [r]]) ?_ ?_ msg h
          · rw [List.foldl_append, ← hg]
            rfl
          · intro b hb
            rcases List.mem_append.mp hb with hb1 | hb2
            · exact hprev b hb1
            · rw [List.mem_singleton.mp hb2, hf]
        · simp only [hf] at h ⊢
          have hmsg : msg = batchErrMsg e := by
            cases h
            rfl
          refine ⟨batch ++ [r], e, hf, hmsg, ?_, ?_, ?_⟩
          · simp
          · intro b2 hb2
            rw [List.dropLast_concat] at hb2
            exact hprev b2 hb2
          · rw [List.dropLast_concat]
            exact hg
      · rw [if_neg hc] at h ⊢
        exact ih (i + 1) g p s (batch ++ [r]) atts hg hprev msg h

/-- C2.  The whole batch is one write transaction: under a committing
store the engine's full effect is applied, under a failure at any
record index k of the batch the rollback leaves the graph exactly as
before the batch (none of the N records' mutations are visible), and
in a stopped pipeline run the final graph is exactly the fold of the
committed batches — the failed batch contributes nothing. -/
theorem batch_transaction_atomicity :
    (∀ (g : GraphState) (b : List FilmRec) (k : ℕ), k < b.length →
      execute_write_film_batch (some k) g b = g)
    ∧ (∀ (g : GraphState) (b : List FilmRec),
      execute_write_film_batch none g b = process_film_batch_specific g b)
    ∧ (∀ (bs : ℕ) (fail : List FilmRec → Option String) (g : GraphState)
        (coll : List RawDoc) (msg : String),
      (integrate_mongodb_to_neo4j_specific bs fail g coll).outcome
        = .stoppedOnBatchError msg →
      (integrate_mongodb_to_neo4j_specific bs fail g coll).graph
        = ((integrate_mongodb_to_neo4j_specific bs fail g coll).attempts.dropLast).foldl
            process_film_batch_specific g) := by
  refine ⟨?_, ?_, ?_⟩
  · intro g b k hk
    rw [execute_write_film_batch,
      run_film_batch_tx_fails b 0 k g (Nat.zero_le k) (by simpa using hk)]
  · intro g b
    rw [execute_write_film_batch, run_film_batch_tx_none b 0 g]
  · intro bs fail g coll msg h
    simp only [integrate_mongodb_to_neo4j_specific] at h ⊢
    obtain ⟨b, e, -, -, -, -, hgraph⟩ :=
      integration_loop_stopped bs fail (coll.filter keptByMongoFilter).length g
        (coll.filter keptByMongoFilter) 0 g 0 0 [] [] rfl (by simp) msg h
    exact hgraph

/-- Witness for C2: with a batch of one record failing at index 0, the
graph is unchanged. -/
theorem batch_transaction_atomicity_witness :
    execute_write_film_batch (some 0) emptyGraphState [sampleFilmRec] = emptyGraphState :=
  batch_transaction_atomicity.1 emptyGraphState [sampleFilmRec] 0 (by decide)

/-- C7 (amended).  On the first batch-transaction error the
orchestrator's run ends at once in the except-branch: the failing
batch is the last attempted (no further batch is processed and the
failed batch is not retried), every earlier attempted batch had
committed, and the reported message is the fixed text plus the
underlying store error — it carries no batch index, and the function
returns this state normally instead of propagating the exception. -/
theorem orchestrator_first_batch_error_behavior (bs : ℕ)
    (fail : List FilmRec → Option String) (g : GraphState) (coll : List RawDoc)
    (msg : String)
    (h : (integrate_mongodb_to_neo4j_specific bs fail g coll).outcome
      = .stoppedOnBatchError msg) :
    ∃ b e, fail b = some e ∧ msg = batchErrMsg e
      ∧ (integrate_mongodb_to_neo4j_specific bs fail g coll).attempts.getLast? = some b
      ∧ ∀ b2 ∈ (integrate_mongodb_to_neo4j_specific bs fail g coll).attempts.dropLast,
          fail b2 = none := by
  simp only [integrate_mongodb_to_neo4j_specific] at h ⊢
  obtain ⟨b, e, h1, h2, h3, h4, -⟩ :=
    integration_loop_stopped bs fail (coll.filter keptByMongoFilter).length g
      (coll.filter keptByMongoFilter) 0 g 0 0 [] [] rfl (by simp) msg h
  exact ⟨b, e, h1, h2, h3, h4⟩

/-- Counterexample for C7 as stated: two concrete runs whose first
batch-transaction error happens at batch index 0 and at batch index 1
respectively produce the very same report (so the report does not say
which batch index failed), and both runs end in the caught-and-return
outcome, not in a propagated exception. -/
theorem orchestrator_error_report_counterexample :
    (integrate_mongodb_to_neo4j_specific 1 failEveryBatch emptyGraphState
        [docValidY]).outcome = .stoppedOnBatchError "Erreur traitement lot Neo4j: boom"
    ∧ (integrate_mongodb_to_neo4j_specific 1 failOnId2 emptyGraphState
        [docValidX, docValidY]).outcome
        = .stoppedOnBatchError "Erreur traitement lot Neo4j: boom"
    ∧ (integrate_mongodb_to_neo4j_specific 1 failEveryBatch emptyGraphState
        [docValidY]).attempts.length = 1
    ∧ (integrate_mongodb_to_neo4j_specific 1 failOnId2 emptyGraphState
        [docValidX, docValidY]).attempts.length = 2
    ∧ isRaisedOutcome (integrate_mongodb_to_neo4j_specific 1 failEveryBatch
        emptyGraphState [docValidY]).outcome = false
    ∧ isRaisedOutcome (integrate_mongodb_to_neo4j_specific 1 failOnId2
        emptyGraphState [docValidX, docValidY]).outcome = false := by
  refine ⟨?_, ?_, ?_, ?_, ?_, ?_⟩ <;> decide

/-- Witness for C7 (amended), on a concrete failing run. -/
theorem orchestrator_first_batch_error_witness :
    ∃ b e, failEveryBatch b = some e
      ∧ "Erreur traitement lot Neo4j: boom" = batchErrMsg e
      ∧ (integrate_mongodb_to_neo4j_specific 1 failEveryBatch emptyGraphState
          [docValidY]).attempts.getLast? = some b
      ∧ ∀ b2 ∈ (integrate_mongodb_to_neo4j_specific 1 failEveryBatch emptyGraphState
          [docValidY]).attempts.dropLast, failEveryBatch b2 = none :=
  orchestrator_first_batch_error_behavior 1 failEveryBatch emptyGraphState [docValidY]
    "Erreur traitement lot Neo4j: boom" (by decide)

lemma linker_no_match_filter (g : GraphState) (film_title : String)
    (h : ∀ x ∈ g.films,
      (g.filmProps x).map FilmProps.title ≠ some (RawValue.str film_title)) :
    g.films.filter
      (fun x => (g.filmProps x).map FilmProps.title = some (RawValue.str film_title)) = ∅ :=
  Finset.filter_eq_empty_iff.mpr h

/-- C9.  When no Film node carries the requested title, the
Project-Membership Linker's transaction completes (it is a total
function, no error path), the store's mutation counters — which the
orchestrator reports — are all zero, and zero PART_OF_PROJECT_TEAM
edges are created. -/
theorem linker_unmatched_title_zero_edges (g : GraphState) (member_names : List String)
    (film_title : String)
    (h : ∀ x ∈ g.films,
      (g.filmProps x).map FilmProps.title ≠ some (RawValue.str film_title)) :
    (add_project_members_to_film g member_names film_title).2 = zeroCounters
    ∧ (add_project_members_to_film g member_names film_title).1.partOfTeam
      = g.partOfTeam := by
  rw [add_project_members_to_film]
  rw [linker_no_match_filter g film_title h]
  constructor
  · simp [zeroCounters]
  · simp

/-- Witness for C9: the spec's end-to-end scenario — one member name,
a title matching no film of the store. -/
theorem linker_unmatched_title_zero_edges_witness :
    (add_project_members_to_film emptyGraphState ["M1"] "Unknown Title").2 = zeroCounters
    ∧ (add_project_members_to_film emptyGraphState ["M1"] "Unknown Title").1.partOfTeam
      = emptyGraphState.partOfTeam :=
  linker_unmatched_title_zero_edges emptyGraphState ["M1"] "Unknown Title" (by decide)

/-- C10.  When no Film node carries the requested title, the Linker's
zero-row UNWIND leaves the graph state entirely unchanged: no Actor
node is merged for any member name, no edge is added and no property
is set. -/
theorem linker_unmatched_title_frame (g : GraphState) (member_names : List String)
    (film_title : String)
    (h : ∀ x ∈ g.films,
      (g.filmProps x).map FilmProps.title ≠ some (RawValue.str film_title)) :
    (add_project_members_to_film g member_names film_title).1 = g := by
  rw [add_project_members_to_film, linker_no_match_filter g film_title h]
  refine GraphState.ext ?_ ?_ ?_ ?_ ?_ ?_ ?_ ?_ ?_ ?_ <;> simp

/-- Witness for C10: a store holding one film ("Inception") is left
untouched by a Linker call for a title it does not hold, member names
included. -/
theorem linker_unmatched_title_frame_witness :
    (add_project_members_to_film graphInception ["M1", "M2"] "Unknown Title").1
      = graphInception :=
  linker_unmatched_title_frame graphInception ["M1", "M2"] "Unknown Title" (by decide)

/-- C6 (code bug).  The flush check `len(batch) >= batch_size or
i == total - 1` is only reached for documents that are not skipped, so
a stream whose last cursor document is skipped never flushes the final
partial batch: with the source's batch size 250 and a two-document
stream (one valid record, then one document missing its title), zero
batches are handed to the Upsert Engine, the valid record is silently
dropped, and the run still completes with a success summary of
0 processed / 1 skipped — instead of the ceil(1/250) = 1 emitted batch
the claim requires. -/
theorem accumulator_drops_trailing_partial_batch :
    (integrate_mongodb_to_neo4j_specific 250 noBatchFailure emptyGraphState
        [docValidX, docMissingTitle]).attempts = []
    ∧ (integrate_mongodb_to_neo4j_specific 250 noBatchFailure emptyGraphState
        [docValidX, docMissingTitle]).processed = 0
    ∧ (integrate_mongodb_to_neo4j_specific 250 noBatchFailure emptyGraphState
        [docValidX, docMissingTitle]).skipped = 1
    ∧ (integrate_mongodb_to_neo4j_specific 250 noBatchFailure emptyGraphState
        [docValidX, docMissingTitle]).outcome
      = .completed "Intégration terminée. 0 films traités, 1 ignorés."
    ∧ normalize_film_doc docValidX ≠ .skip := by
  refine ⟨?_, ?_, ?_, ?_, ?_⟩ <;> decide

/-- C8 (code bug).  src/app/queries/neo4j_queries.py calls `re.match`
without ever importing `re`, so its `create_relationship` raises
`NameError` on every call — for regex-valid relationship types (which
the claim says run the query) just as for invalid ones (which the
claim says raise `ValueError`); meanwhile the writer in
src/app/database/neo4j.py interpolates any relationship type into its
query text with no validation at all. -/
theorem create_relationship_always_name_error (rel_type : String) :
    queries_create_relationship rel_type = .raisedExn (.nameError "re")
    ∧ db_create_relationship rel_type
      = .queryRun ("MATCH (start), (end) WHERE ID(start) = $start_id AND ID(end) = $end_id CREATE (start)-[r:"
          ++ rel_type ++ " $props]->(end) RETURN r") := by
  constructor
  · rw [queries_create_relationship, if_neg]
    decide
  · rfl

lemma natReprGo_length_le : ∀ (fuel n : ℕ) (acc : List Char),
    acc.length ≤ (natReprGo fuel n acc).length := by
  intro fuel
  induction fuel with
  | zero => intro n acc; exact Nat.le_refl _
  | succ fuel ih =>
    intro n acc
    rw [natReprGo]
    by_cases h : n < 10
    · simp [h]
    · simp only [h, if_false]
      calc acc.length ≤ (Char.ofNat (48 + n % 10) :: acc).length := by simp
        _ ≤ _ := ih (n / 10) _

lemma natReprGo_length_pos (fuel n : ℕ) (acc : List Char) (h : 0 < fuel) :
    0 < (natReprGo fuel n acc).length := by
  rcases fuel with _ | fuel
  · omega
  · rw [natReprGo]
    by_cases h10 : n < 10
    · simp [h10]
    · simp only [h10, if_false]
      calc 0 < (Char.ofNat (48 + n % 10) :: acc).length := by simp
        _ ≤ _ := natReprGo_length_le fuel (n / 10) _

lemma natReprStr_ne_empty (n : ℕ) : natReprStr n ≠ "" := by
  intro h
  have hlen := congrArg String.length h
  have : (natReprGo (n + 1) n []).length = 0 := hlen
  have hpos := natReprGo_length_pos (n + 1) n [] (Nat.succ_pos n)
  omega

lemma pyStrInt_ne_empty (n : Int) : pyStrInt n ≠ "" := by
  rw [pyStrInt]
  by_cases h : n < 0
  · simp only [h, if_true]
    intro he
    have h2 := congrArg String.length he
    rw [String.length_append] at h2
    have h3 : ("-" : String).length = 1 := rfl
    have h0 : ("" : String).length = 0 := rfl
    rw [h3, h0] at h2
    omega
  · simp only [h, if_false]
    exact natReprStr_ne_empty n.natAbs

lemma pyStrFloat_ne_empty (q : ℚ) : pyStrFloat q ≠ "" := by
  rw [pyStrFloat]
  intro he
  have h2 := congrArg String.length he
  rw [String.length_append, String.length_append, String.length_append] at h2
  have h3 : ("." : String).length = 1 := rfl
  have h0 : ("" : String).length = 0 := rfl
  rw [h3, h0] at h2
  omega

lemma pyStrList_ne_empty (l : List String) : pyStrList l ≠ "" := by
  rw [pyStrList]
  intro he
  have h2 := congrArg String.length he
  rw [String.length_append, String.length_append] at h2
  have h3 : ("[" : String).length = 1 := rfl
  have h0 : ("" : String).length = 0 := rfl
  rw [h3, h0] at h2
  omega

/-- `str()` of a truthy Python value is never the empty string. -/
lemma pyStr_ne_empty (v : RawValue) (h : truthy v = true) : pyStr v ≠ "" := by
  cases v with
  | null => simp [truthy] at h
  | str s =>
    simp only [truthy, bne_iff_ne, ne_eq] at h
    simpa [pyStr] using h
  | int n => exact pyStrInt_ne_empty n
  | float q => exact pyStrFloat_ne_empty q
  | listStr l => exact pyStrList_ne_empty l

/-- C3 (amended).  A raw document whose title or identifier is missing
(None) or an empty string is skipped — a signal, not an error — and no
canonical record ever carries an empty `sourceId` or an empty/missing
title; every document whose identifier and title are both truthy is
normalized into a record, except that documents whose identifier is a
string starting with `_design/` are likewise skipped (the design-doc
exclusion), and other falsy field values (0, empty list) also skip. -/
theorem normalizer_skip_behavior (d : RawDoc) :
    ((d.title = .null ∨ d.title = .str "" ∨ d.id = .null ∨ d.id = .str "") →
      normalize_film_doc d = .skip)
    ∧ (∀ r, normalize_film_doc d = .ok r →
        r.mongoId ≠ "" ∧ r.title ≠ .str "" ∧ r.title ≠ .null)
    ∧ (isDesignId d.id = true → normalize_film_doc d = .skip)
    ∧ ((truthy d.id = false ∨ truthy d.title = false) → normalize_film_doc d = .skip)
    ∧ (truthy d.id = true → truthy d.title = true → isDesignId d.id = false →
        ∃ r, normalize_film_doc d = .ok r) := by
  refine ⟨?_, ?_, ?_, ?_, ?_⟩
  · intro h
    rcases h with h | h | h | h <;>
      · rw [normalize_film_doc]
        by_cases hd : isDesignId d.id = true
        · simp [hd]
        · simp only [Bool.not_eq_true] at hd
          simp [hd, h, truthy]
  · intro r hr
    rw [normalize_film_doc] at hr
    by_cases hd : isDesignId d.id = true
    · simp [hd] at hr
    · simp only [Bool.not_eq_true] at hd
      simp only [hd, Bool.false_eq_true, if_false] at hr
      by_cases hc : (truthy d.title && truthy d.id) = true
      · simp only [hc, if_true] at hr
        have hand : truthy d.title = true ∧ truthy d.id = true := by
          simpa [Bool.and_eq_true] using hc
        cases hr
        refine ⟨pyStr_ne_empty d.id hand.2, ?_, ?_⟩
        · show d.title ≠ RawValue.str ""
          intro he
          have hti := hand.1
          rw [he] at hti
          simp [truthy] at hti
        · show d.title ≠ RawValue.null
          intro he
          have hti := hand.1
          rw [he] at hti
          simp [truthy] at hti
      · simp only [Bool.not_eq_true] at hc
        simp [hc] at hr
  · intro h
    rw [normalize_film_doc]
    simp [h]
  · intro h
    rw [normalize_film_doc]
    by_cases hd : isDesignId d.id = true
    · simp [hd]
    · simp only [Bool.not_eq_true] at hd
      rcases h with h | h <;> simp [hd, h]
  · intro hid hti hd
    rw [normalize_film_doc]
    simp [hd, hid, hti]

/-- Counterexample for C3 as stated: this design document has a
present, nonempty string title and a present, nonempty string
identifier — so the claim's "all other records are unaffected" says it
is not skipped — yet the Normalizer skips it. -/
theorem normalizer_skip_counterexample :
    normalize_film_doc docDesign = .skip
    ∧ docDesign.title = .str "X"
    ∧ docDesign.id = .str "_design/layout"
    ∧ docDesign.title ≠ .null ∧ docDesign.title ≠ .str ""
    ∧ docDesign.id ≠ .null ∧ docDesign.id ≠ .str "" := by
  refine ⟨?_, ?_, ?_, ?_, ?_, ?_, ?_⟩ <;> decide

/-- Witness for C3 (amended): a document with a missing title is
skipped, and a fully valid document is normalized. -/
theorem normalizer_skip_behavior_witness :
    normalize_film_doc docMissingTitle = .skip
    ∧ ∃ r, normalize_film_doc docValidX = .ok r :=
  ⟨(normalizer_skip_behavior docMissingTitle).1 (Or.inl rfl),
   (normalizer_skip_behavior docValidX).2.2.2.2 (by decide) (by decide) (by decide)⟩

/-- C5 (amended).  In every canonical record the three multi-value
fields are produced as follows: a string source value is split on
commas with parts trimmed and empty parts removed (all three fields);
a list source value is kept — elements trimmed, empty elements
removed — only for `directors`, while for `actors` and `genres` every
non-string source value, lists included, yields the empty list;
`primaryDirector` is the head of the cleaned director list. -/
theorem multivalue_field_cleaning :
    (∀ (d : RawDoc) (r : FilmRec), normalize_film_doc d = .ok r →
      r.allDirectors = normDirectors d.director ∧ r.actors = normActors d.actors
        ∧ r.genres = normGenres d.genre
        ∧ r.director = (normDirectors d.director).head?)
    ∧ (∀ l, normDirectors (.listStr l)
        = (l.map (fun x => (pyStripChars x.toList).asString)).filter (· ≠ ""))
    ∧ (∀ s, normDirectors (.str s) = splitCommaTrim s
        ∧ normActors (.str s) = splitCommaTrim s
        ∧ normGenres (.str s) = splitCommaTrim s)
    ∧ (∀ v, (∀ s, v ≠ .str s) → normActors v = [] ∧ normGenres v = [])
    ∧ (∀ v, (∀ s, v ≠ .str s) → (∀ l, v ≠ .listStr l) → normDirectors v = []) := by
  refine ⟨?_, fun l => rfl, fun s => ⟨rfl, rfl, rfl⟩, ?_, ?_⟩
  · intro d r hr
    rw [normalize_film_doc] at hr
    by_cases hd : isDesignId d.id = true
    · simp [hd] at hr
    · simp only [Bool.not_eq_true] at hd
      simp only [hd, Bool.false_eq_true, if_false] at hr
      by_cases hc : (truthy d.title && truthy d.id) = true
      · simp only [hc, if_true] at hr
        cases hr
        exact ⟨rfl, rfl, rfl, rfl⟩
      · simp only [Bool.not_eq_true] at hc
        simp [hc] at hr
  · intro v hv
    cases v with
    | str s => exact absurd rfl (hv s)
    | null => exact ⟨rfl, rfl⟩
    | int n => exact ⟨rfl, rfl⟩
    | float q => exact ⟨rfl, rfl⟩
    | listStr l => exact ⟨rfl, rfl⟩
  · intro v hv hl
    cases v with
    | str s => exact absurd rfl (hv s)
    | listStr l => exact absurd rfl (hl l)
    | null => rfl
    | int n => rfl
    | float q => rfl

/-- Counterexample for C5 as stated: a document whose `Actors` and
`genre` fields are the lists `["C"]` and `["Drama"]` — which the claim
says are used verbatim — normalizes to a record whose `actors` and
`genres` are empty, while the same list shape under `Director` is
indeed kept. -/
theorem multivalue_list_counterexample :
    normalize_film_doc docListActors = .ok recListActors
    ∧ recListActors.actors = []
    ∧ recListActors.genres = []
    ∧ recListActors.allDirectors = ["D"]
    ∧ docListActors.actors = .listStr ["C"]
    ∧ docListActors.genre = .listStr ["Drama"]
    ∧ ((["C"].map (fun x => (pyStripChars x.toList).asString)).filter (· ≠ "")) = ["C"] := by
  refine ⟨?_, ?_, ?_, ?_, ?_, ?_, ?_⟩ <;> decide

/-- Witness for C5 (amended), instantiated on `docListActors`. -/
theorem multivalue_field_cleaning_witness :
    recListActors.allDirectors = normDirectors docListActors.director
    ∧ recListActors.actors = normActors docListActors.actors
    ∧ recListActors.genres = normGenres docListActors.genre
    ∧ recListActors.director = (normDirectors docListActors.director).head? :=
  multivalue_field_cleaning.1 docListActors recListActors (by decide)

lemma currencyChar_props {c : Char} (h : currencyChar c = true) :
    (c != '$') = true ∧ pyUpperChar c = c ∧ c ≠ 'M' ∧ c ≠ 'K' := by
  rw [currencyChar] at h
  rcases Bool.or_eq_true _ _ |>.mp h with h2 | hdot
  · rcases Bool.or_eq_true _ _ |>.mp h2 with hdig | hcomma
    · refine ⟨?_, ?_, ?_, ?_⟩
      · simp only [bne_iff_ne, ne_eq]
        intro he
        rw [he] at hdig
        exact absurd hdig (by decide)
      · have hb : 48 ≤ c.toNat ∧ c.toNat ≤ 57 := by
          simpa [isDigitCh, Bool.and_eq_true, decide_eq_true_eq] using hdig
        rw [pyUpperChar, if_neg]
        intro hcon
        omega
      · intro he
        rw [he] at hdig
        exact absurd hdig (by decide)
      · intro he
        rw [he] at hdig
        exact absurd hdig (by decide)
    · have : c = ',' := by simpa using hcomma
      subst this
      exact ⟨by decide, by decide, by decide, by decide⟩
  · have : c = '.' := by simpa using hdot
    subst this
    exact ⟨by decide, by decide, by decide, by decide⟩

lemma all_currency_filter_props (l : List Char) (hall : ∀ a ∈ l, currencyChar a = true) :
    l.filter (· != '$') = l
    ∧ (l.filter (· != ',')).map pyUpperChar = l.filter (· != ',')
    ∧ 'M' ∉ l.filter (· != ',') ∧ 'K' ∉ l.filter (· != ',') := by
  refine ⟨?_, ?_, ?_, ?_⟩
  · exact List.filter_eq_self.mpr (fun a ha => (currencyChar_props (hall a ha)).1)
  · have h2 : ∀ a ∈ l.filter (· != ','), pyUpperChar a = a :=
      fun a ha => (currencyChar_props (hall a (List.mem_of_mem_filter ha))).2.1
    have := List.map_congr_left (g := id) h2
    simpa using this
  · intro hm
    exact (currencyChar_props (hall 'M' (List.mem_of_mem_filter hm))).2.2.1 rfl
  · intro hk
    exact (currencyChar_props (hall 'K' (List.mem_of_mem_filter hk))).2.2.2 rfl

lemma filter_dollar_stripDollar (cs : List Char) :
    cs.filter (· != '$') = (stripDollar cs).filter (· != '$') := by
  cases cs with
  | nil => rfl
  | cons c r =>
    by_cases h : c = '$'
    · simp [stripDollar, h, List.filter_cons]
    · simp [stripDollar, h, List.filter_cons]

lemma currencySuffixSplit_cases (cs : List Char) :
    (∃ c, (c = 'M' ∨ c = 'K' ∨ c = 'm' ∨ c = 'k')
      ∧ currencySuffixSplit cs = (cs.dropLast, some c) ∧ cs = cs.dropLast ++ [c])
    ∨ currencySuffixSplit cs = (cs, none) := by
  rcases hl : cs.getLast? with _ | c
  · right
    have : cs = [] := by simpa using hl
    subst this
    rfl
  · by_cases hc : c = 'M' ∨ c = 'K' ∨ c = 'm' ∨ c = 'k'
    · left
      obtain ⟨l2, hl2⟩ := List.getLast?_eq_some_iff.mp hl
      refine ⟨c, hc, ?_, ?_⟩
      · simp only [currencySuffixSplit, hl]
        rw [if_pos hc]
      · subst hl2
        rw [List.dropLast_concat]
    · right
      simp only [currencySuffixSplit, hl]
      rw [if_neg hc]

/-- C4 (amended).  For every currency string matching
`^\$?[0-9,.]+[MK]?$` (case-insensitive suffix), revenue normalization
equals the Python float-parse of the base (the match with `$`, the
suffix letter and the `,` separators removed) multiplied by 1,000,000
for an M suffix, 1,000 for a K suffix and 1 otherwise — absent exactly
when that base fails to parse (e.g. no digit, or two dots).  Numeric
values pass through and non-string non-numeric values yield absent;
the normalizer is a total function, so it never raises. -/
theorem revenue_currency_normalization :
    (∀ s : String, matchesCurrencyRegex s = true →
      normRevenue (.str s)
        = (pyFloatChars (currencyBase s)).map (fun q => q * currencyFactor s))
    ∧ (∀ n : Int, normRevenue (.int n) = some ((n : ℚ)))
    ∧ (∀ q : ℚ, normRevenue (.float q) = some q)
    ∧ normRevenue .null = none
    ∧ (∀ l, normRevenue (.listStr l) = none) := by
  refine ⟨?_, fun n => rfl, fun q => rfl, rfl, fun l => rfl⟩
  intro s h
  simp only [matchesCurrencyRegex] at h
  rw [Bool.and_eq_true] at h
  obtain ⟨hne, hallb⟩ := h
  show revenueFromChars s.toList = _
  rcases currencySuffixSplit_cases (stripDollar s.toList) with ⟨c, hc, hsplit, hcons⟩ | hsplit
  · set B := (stripDollar s.toList).dropLast with hBdef
    clear_value B
    have hall : ∀ a ∈ B, currencyChar a = true := by
      rw [hsplit] at hallb
      exact List.all_eq_true.mp hallb
    obtain ⟨hfd, hfix, hM, hK⟩ := all_currency_filter_props B hall
    have hcd : (c != '$') = true := by
      rcases hc with h1 | h1 | h1 | h1 <;> subst h1 <;> decide
    have hcc : (c != ',') = true := by
      rcases hc with h1 | h1 | h1 | h1 <;> subst h1 <;> decide
    have hclean : (s.toList.filter (· != '$')).filter (· != ',')
        = B.filter (· != ',') ++ [c] := by
      rw [filter_dollar_stripDollar, hcons, List.filter_append, List.filter_append, hfd]
      simp [hcd, hcc]
    have hnoM : (B.filter (· != ',')).filter (· != 'M') = B.filter (· != ',') :=
      List.filter_eq_self.mpr (fun a ha => by
        simp only [bne_iff_ne, ne_eq]
        intro he
        exact hM (he ▸ ha))
    have hnoK : (B.filter (· != ',')).filter (· != 'K') = B.filter (· != ',') :=
      List.filter_eq_self.mpr (fun a ha => by
        simp only [bne_iff_ne, ne_eq]
        intro he
        exact hK (he ▸ ha))
    simp only [revenueFromChars, currencyBase, currencyFactor, hsplit]
    rw [hclean, List.map_append, hfix]
    simp only [List.map_cons, List.map_nil]
    rcases hc with h1 | h1 | h1 | h1 <;> subst h1
    · have hup : pyUpperChar 'M' = 'M' := by decide
      rw [hup, if_pos (by simp)]
      rw [List.filter_append, hnoM]
      simp
    · have hup : pyUpperChar 'K' = 'K' := by decide
      rw [hup]
      rw [if_neg (by simp [List.mem_append, hM]), if_pos (by simp)]
      rw [List.filter_append, hnoK]
      have hfac : (if ('K' : Char) = 'M' ∨ ('K' : Char) = 'm' then (1000000 : ℚ) else 1000) = 1000 := by
        rw [if_neg (by decide : ¬(('K' : Char) = 'M' ∨ ('K' : Char) = 'm'))]
      rw [hfac]
      simp
    · have hup : pyUpperChar 'm' = 'M' := by decide
      rw [hup, if_pos (by simp)]
      rw [List.filter_append, hnoM]
      simp
    · have hup : pyUpperChar 'k' = 'K' := by decide
      rw [hup]
      rw [if_neg (by simp [List.mem_append, hM]), if_pos (by simp)]
      rw [List.filter_append, hnoK]
      have hfac : (if ('k' : Char) = 'M' ∨ ('k' : Char) = 'm' then (1000000 : ℚ) else 1000) = 1000 := by
        rw [if_neg (by decide : ¬(('k' : Char) = 'M' ∨ ('k' : Char) = 'm'))]
      rw [hfac]
      simp
  · have hall : ∀ a ∈ stripDollar s.toList, currencyChar a = true := by
      rw [hsplit] at hallb
      exact List.all_eq_true.mp hallb
    obtain ⟨hfd, hfix, hM, hK⟩ := all_currency_filter_props _ hall
    have hclean : (s.toList.filter (· != '$')).filter (· != ',')
        = (stripDollar s.toList).filter (· != ',') := by
      rw [filter_dollar_stripDollar, hfd]
    simp only [revenueFromChars, currencyBase, currencyFactor, hsplit]
    rw [hclean, hfix]
    rw [if_neg hM, if_neg hK]
    rcases hres : pyFloatChars ((stripDollar s.toList).filter (· != ',')) with _ | q
    · simp
    · simp

/-- Counterexample for C4 as stated: "." matches the claim's regex yet
yields an absent revenue (Python `float(".")` raises, caught to None),
and "5e3" does not match the regex yet yields a present numeric
revenue (Python `float("5e3")` parses exponent notation), against the
claim's "every other string becomes absent". -/
theorem revenue_currency_counterexample :
    matchesCurrencyRegex "." = true
    ∧ normRevenue (.str ".") = none
    ∧ matchesCurrencyRegex "5e3" = false
    ∧ normRevenue (.str "5e3") ≠ none := by
  refine ⟨?_, ?_, ?_, ?_⟩ <;> decide

/-- Witness for C4 (amended) at the spec's own example "$1.5M". -/
theorem revenue_currency_normalization_witness :
    matchesCurrencyRegex "$1.5M" = true
    ∧ normRevenue (.str "$1.5M")
      = (pyFloatChars (currencyBase "$1.5M")).map (fun q => q * currencyFactor "$1.5M") :=
  ⟨by decide, revenue_currency_normalization.1 "$1.5M" (by decide)⟩
